import Mathlib

/-!
# k8-ssh-tunnel-client: the `main` package

A shallow embedding of `main.go`: the three file-or-embedded-default loaders,
the `main` function as a trace of the calls it makes into the `ssh` package,
and the signal handler installed by `handleForcedTermination`.

Go strings and byte slices are byte sequences; a Go `error` is represented by
its `Error()` message, and a `(value, error)` result by a pair whose second
component is `none` for `nil`.
-/

namespace K8Tunnel

/-- A Go `string` or `[]byte`: a sequence of bytes. -/
abbrev GoString := List UInt8

/-- A non-nil Go `error`, represented by its `Error()` message. -/
abbrev GoError := GoString

/-- The bytes of a string literal of the source (Go source text is UTF-8). -/
def str (s : String) : GoString := s.data.flatMap String.utf8EncodeChar

/-- Go `strings.HasSuffix`:
`len(s) >= len(suffix) && s[len(s)-len(suffix):] == suffix`. -/
def HasSuffix (s suffix : GoString) : Bool :=
  decide (suffix.length ≤ s.length) && (s.drop (s.length - suffix.length) == suffix)

/-- Go `strings.TrimSuffix`: `s[:len(s)-len(suffix)]` when `s` ends with
`suffix`, otherwise `s`. -/
def TrimSuffix (s suffix : GoString) : GoString :=
  if HasSuffix s suffix then s.take (s.length - suffix.length) else s

/-- What the operating system answers for one path: the error of `os.Stat`
(`none` for `nil`) and the result of `ioutil.ReadFile`. The two are kept
independent, so every combination the two calls can observe is covered. -/
structure FileProbe where
  stat : Option GoError
  read : Except GoError GoString

/-- A file-system state: the answers for every path. -/
abbrev FileSystem := String → FileProbe

/-- A path that does not exist: both `os.Stat` and `ioutil.ReadFile` fail. -/
def FileProbe.missing (name : String) : FileProbe :=
  { stat := some (str "stat " ++ str name ++ str ": no such file or directory"),
    read := .error (str "open " ++ str name ++ str ": no such file or directory") }

/-- A regular readable file with the given content. -/
def FileProbe.present (content : GoString) : FileProbe :=
  { stat := none, read := .ok content }

/-- `getTunnelServerUrl` of `main.go`. -/
def getTunnelServerUrl (fs : FileSystem) (fallbackVal : GoString) : GoString × Option GoError :=
  if (fs "tunnel-server-url").stat.isSome && !fallbackVal.isEmpty then
    (fallbackVal, none)
  else
    match (fs "tunnel-server-url").read with
    | .error err => (str "", some err)
    | .ok buffer => (TrimSuffix buffer (str "\n"), none)

/-- `getTunnelServerFingerprint` of `main.go`. -/
def getTunnelServerFingerprint (fs : FileSystem) (fallbackVal : GoString) :
    GoString × Option GoError :=
  if (fs "host-md5-fingerprint").stat.isSome && !fallbackVal.isEmpty then
    (fallbackVal, none)
  else
    match (fs "host-md5-fingerprint").read with
    | .error err => (str "", some err)
    | .ok buffer => (buffer, none)

/-- `getSshPrivateKey` of `main.go`. -/
def getSshPrivateKey (fs : FileSystem) (fallbackVal : GoString) : GoString × Option GoError :=
  if (fs "authorized-ssh-private-key").stat.isSome && !fallbackVal.isEmpty then
    (fallbackVal, none)
  else
    match (fs "authorized-ssh-private-key").read with
    | .error err => ([], some err)
    | .ok buffer => (buffer, none)

/-- The fields `main` sets in an `ssh.SshTunnel` composite literal. The type of
`Config` is whatever `ssh.GetAuthSshConfigs` returns. -/
structure SshTunnel (Cfg : Type) where
  Config : Cfg
  LocalFrontendUrl : GoString
  SshServerUrl : GoString
  RemoteBackendUrl : GoString
  deriving DecidableEq

/-- The field `main` sets in the `ssh.SshTunnelsManager` composite literal. -/
structure SshTunnelsManager (Cfg : Type) where
  Tunnels : List (SshTunnel Cfg)
  deriving DecidableEq

/-- Everything `main` reads from outside itself: the file system, the three
`go:embed` package variables, and the functions of the `ssh` package it calls
(`Key` is the parsed private key, `Cfg` the auth config; a `(value, err)`
result of the package is an `Except`, a nil error coming with a usable value;
`Launch` gives the messages of the errors it returns). -/
structure Env (Key Cfg : Type) where
  fs : FileSystem
  embeddedTunnelServerUrl : GoString
  embeddedAuthorizedPrivateKey : GoString
  embeddedTunnelFingerprint : GoString
  ParsePrivateKey : GoString → Except GoError Key
  GetAuthSshConfigs : GoString → Key → GoString → Except GoError Cfg
  Launch : SshTunnelsManager Cfg → List GoError

/-- The calls `main` makes, with their arguments, in program order. -/
inductive Event (Key Cfg : Type) where
  | ParsePrivateKey (pem : GoString)
  | GetAuthSshConfigs (user : GoString) (key : Key) (fingerprint : GoString)
  | handleForcedTermination (manager : SshTunnelsManager Cfg)
  | Launch (manager : SshTunnelsManager Cfg)
  | Println (line : GoString)
  deriving DecidableEq

/-- One run of `main`: the calls made, and the panic message when it panicked
(`none` when `main` returned normally). -/
structure Run (Key Cfg : Type) where
  events : List (Event Key Cfg)
  panic : Option GoString

/-- `main` of `main.go`. -/
def main {Key Cfg : Type} (env : Env Key Cfg) : Run Key Cfg :=
  match getSshPrivateKey env.fs env.embeddedAuthorizedPrivateKey with
  | (_, some keyAsBytesErr) =>
    { events := [],
      panic := some (str "Failed to read private key: " ++ keyAsBytesErr) }
  | (privateKeyAsBytes, none) =>
  match env.ParsePrivateKey privateKeyAsBytes with
  | .error keyParseErr =>
    { events := [.ParsePrivateKey privateKeyAsBytes],
      panic := some (str "Failed to parse private key: " ++ keyParseErr) }
  | .ok privateKey =>
  match getTunnelServerUrl env.fs env.embeddedTunnelServerUrl with
  | (_, some tunnelUrlErr) =>
    { events := [.ParsePrivateKey privateKeyAsBytes],
      panic := some (str "Failed to retrieve tunnel server url: " ++ tunnelUrlErr) }
  | (tunnelServerUrl, none) =>
  match getTunnelServerFingerprint env.fs env.embeddedTunnelFingerprint with
  | (_, some tunnelFingerprintErr) =>
    { events := [.ParsePrivateKey privateKeyAsBytes],
      panic := some (str "Failed to retrieve tunnel server fingerprint: " ++ tunnelFingerprintErr) }
  | (tunnelFingerprint, none) =>
  match env.GetAuthSshConfigs (str "ubuntu") privateKey tunnelFingerprint with
  | .error err =>
    { events := [.ParsePrivateKey privateKeyAsBytes,
                 .GetAuthSshConfigs (str "ubuntu") privateKey tunnelFingerprint],
      panic := some (str "Failed to initiate ssh auth configs: " ++ err) }
  | .ok sshConfig =>
    let tunnels : List (SshTunnel Cfg) := [
      { Config := sshConfig,
        LocalFrontendUrl := str "127.0.0.1:443",
        SshServerUrl := tunnelServerUrl,
        RemoteBackendUrl := str "127.0.0.1:443" },
      { Config := sshConfig,
        LocalFrontendUrl := str "127.0.0.1:6443",
        SshServerUrl := tunnelServerUrl,
        RemoteBackendUrl := str "127.0.0.1:6443" }]
    let manager : SshTunnelsManager Cfg := { Tunnels := tunnels }
    let errs := env.Launch manager
    { events := [.ParsePrivateKey privateKeyAsBytes,
                 .GetAuthSshConfigs (str "ubuntu") privateKey tunnelFingerprint,
                 .handleForcedTermination manager,
                 .Launch manager] ++ errs.map .Println,
      panic := none }

/-- What a list of events writes to standard output: `fmt.Println` writes its
argument followed by a newline; no other call of `main` writes there. -/
def stdoutOf {Key Cfg : Type} : List (Event Key Cfg) → GoString
  | [] => []
  | .Println line :: rest => line ++ str "\n" ++ stdoutOf rest
  | _ :: rest => stdoutOf rest

/-- The lines `main` printed, in order. -/
def printedLines {Key Cfg : Type} : List (Event Key Cfg) → List GoString
  | [] => []
  | .Println line :: rest => line :: printedLines rest
  | _ :: rest => printedLines rest

/-- A run reaches the core when it registers the signal handler for a manager
or calls `Launch` on one. -/
def Run.reachesCore {Key Cfg : Type} (r : Run Key Cfg) : Prop :=
  ∃ m, Event.handleForcedTermination m ∈ r.events ∨ Event.Launch m ∈ r.events

/-- The two signals `handleForcedTermination` registers for. -/
inductive Signal where
  | Interrupt
  | SIGTERM
  deriving DecidableEq

/-- The state `handleForcedTermination` sets up: the channel `c` (buffered,
capacity 1) with the signals waiting in it, and the manager the goroutine
closes. `closeCalls` counts the calls of `manager.Close` made so far. -/
structure Handler (M : Type) where
  c : List Signal
  manager : M
  closeCalls : Nat

/-- `handleForcedTermination` of `main.go`: an empty channel, no `Close` call
made yet. -/
def handleForcedTermination {M : Type} (manager : M) : Handler M :=
  { c := [], manager := manager, closeCalls := 0 }

/-- What can happen to the handler: the runtime relays a registered signal to
`c`, or the goroutine runs one iteration of `for _ = range c`. -/
inductive HandlerAction where
  | deliver (s : Signal)
  | receive
  deriving DecidableEq

/-- One step of the handler. `signal.Notify` sends without blocking: a signal
that finds the one-slot buffer full is dropped. An iteration of the loop takes
one signal from `c` and calls `manager.Close()`; on an empty channel the
goroutine stays blocked. -/
def Handler.step {M : Type} (Close : M → M) (h : Handler M) : HandlerAction → Handler M
  | .deliver s => if h.c.length < 1 then { h with c := h.c ++ [s] } else h
  | .receive =>
    match h.c with
    | [] => h
    | _ :: rest => { c := rest, manager := Close h.manager, closeCalls := h.closeCalls + 1 }

/-- The handler after a schedule of deliveries and loop iterations. -/
def Handler.run {M : Type} (Close : M → M) (h : Handler M) (sched : List HandlerAction) :
    Handler M :=
  sched.foldl (Handler.step Close) h

/-- The schedule in which every signal of the sequence is taken by the
goroutine before the next one arrives. -/
def oneByOne (sigs : List Signal) : List HandlerAction :=
  sigs.flatMap (fun s => [.deliver s, .receive])

/-- The number of signals a schedule delivers. -/
def delivered : List HandlerAction → Nat
  | [] => 0
  | .deliver _ :: rest => delivered rest + 1
  | .receive :: rest => delivered rest

/-- The process from the moment `manager.Launch()` has returned `errs`, with
the handler in whatever state it is in by then: the errors `main` has not
printed yet, standard output so far, whether `main` has
returned (a Go program exits when `main` returns, without waiting for other
goroutines), and the signal handler. -/
structure Process (M : Type) where
  pending : List GoError
  stdout : GoString
  exited : Bool
  handler : Handler M

/-- The process right after `errs := manager.Launch()`. -/
def Process.afterLaunch {M : Type} (h : Handler M) (errs : List GoError) : Process M :=
  { pending := errs, stdout := [], exited := false, handler := h }

/-- A step of the process: a step of the handler, or a step of `main`. -/
inductive Action where
  | handler (a : HandlerAction)
  | mainStep
  deriving DecidableEq

/-- One step of the process. A step of `main` is one iteration of
`for _, err := range errs` (print the next error) or, when the loop is over,
the return from `main`. After the exit nothing happens any more. -/
def Process.step {M : Type} (Close : M → M) (p : Process M) (a : Action) : Process M :=
  if p.exited then p else
  match a with
  | .handler a => { p with handler := p.handler.step Close a }
  | .mainStep =>
    match p.pending with
    | err :: rest => { p with pending := rest, stdout := p.stdout ++ (err ++ str "\n") }
    | [] => { p with exited := true }

/-- The process after a schedule. -/
def Process.run {M : Type} (Close : M → M) (p : Process M) (sched : List Action) : Process M :=
  sched.foldl (Process.step Close) p

/-- The number of steps of `main` in a schedule. -/
def mainSteps : List Action → Nat
  | [] => 0
  | .mainStep :: rest => mainSteps rest + 1
  | .handler _ :: rest => mainSteps rest

/-- The number of signals a schedule of the process delivers. -/
def signalsIn : List Action → Nat
  | [] => 0
  | .handler (.deliver _) :: rest => signalsIn rest + 1
  | _ :: rest => signalsIn rest

/-- Modelled from the spec: the lifecycle states of an `SshTunnel` (the `ssh`
package is not part of the sources at hand). -/
inductive TunnelPhase where
  | Idle
  | Connecting
  | Listening
  | Reconnecting
  | Closed
  deriving DecidableEq

/-- Modelled from the spec: the runtime state of one `SshTunnel` of the `ssh`
package: its spec, its lifecycle state, the local listener while bound, whether
an SSH session is open, the active forwarded connections and the retry
counter. -/
structure TunnelState (Cfg : Type) where
  spec : SshTunnel Cfg
  phase : TunnelPhase
  listener : Option GoString
  session : Bool
  connections : List Nat
  retries : Nat
  deriving DecidableEq

/-- Modelled from the spec: the state of an `SshTunnelsManager` of the `ssh`
package: its ordered tunnels and the process-wide shutdown signal. -/
structure ManagerState (Cfg : Type) where
  tunnels : List (TunnelState Cfg)
  shutdown : Bool
  deriving DecidableEq

/-- Modelled from the spec: a stop request to one tunnel of the `ssh` package.
Whatever its state, the tunnel releases its listener, SSH session and
forwarded connections and reaches `Closed`. -/
def TunnelState.stop {Cfg : Type} (t : TunnelState Cfg) : TunnelState Cfg :=
  { t with phase := .Closed, listener := none, session := false, connections := [] }

/-- Modelled from the spec: `SshTunnelsManager.Close` of the `ssh` package. It
raises the shutdown signal, stops every owned tunnel and returns nothing. -/
def ManagerState.Close {Cfg : Type} (m : ManagerState Cfg) : ManagerState Cfg :=
  { tunnels := m.tunnels.map TunnelState.stop, shutdown := true }

/-- Modelled from the spec: the state the spec promises after `Close`: no
tunnel holds an open listener, an open SSH session or an open forwarded
connection, and every tunnel is `Closed`. -/
def ManagerState.released {Cfg : Type} (m : ManagerState Cfg) : Prop :=
  ∀ t ∈ m.tunnels,
    t.phase = .Closed ∧ t.listener = none ∧ t.session = false ∧ t.connections = []

/-! ## Concrete inputs -/

/-- A file system in which none of the three files exists. -/
def missingFs : FileSystem := fun name => FileProbe.missing name

/-- A file system holding the three files, each ending in a newline. -/
def sampleFs : FileSystem := fun name =>
  if name = "tunnel-server-url" then FileProbe.present (str "bastion:22\n")
  else if name = "host-md5-fingerprint" then FileProbe.present (str "aa:bb\n")
  else if name = "authorized-ssh-private-key" then FileProbe.present (str "KEY\n")
  else FileProbe.missing name

/-- An environment over a given file system: embedded defaults, an `ssh`
package that rejects an empty key and records what the auth config was built
from, and a `Launch` returning the given errors. -/
def sampleEnv (fs : FileSystem) (launchErrs : List GoError) :
    Env GoString (GoString × GoString × GoString) :=
  { fs := fs,
    embeddedTunnelServerUrl := str "embedded:22",
    embeddedAuthorizedPrivateKey := str "EMBEDDED KEY",
    embeddedTunnelFingerprint := str "ee:ee",
    ParsePrivateKey := fun pem =>
      if pem.isEmpty then .error (str "ssh: no key found") else .ok pem,
    GetAuthSshConfigs := fun user key fingerprint => .ok (user, key, fingerprint),
    Launch := fun _ => launchErrs }

/-- A file system like `sampleFs`, except that `host-md5-fingerprint` exists and
is empty. -/
def emptyFingerprintFs : FileSystem := fun name =>
  if name = "host-md5-fingerprint" then FileProbe.present [] else sampleFs name

/-- The manager `main` builds in `sampleEnv sampleFs`. -/
def sampleManager : SshTunnelsManager (GoString × GoString × GoString) :=
  { Tunnels := [
      { Config := (str "ubuntu", str "KEY\n", str "aa:bb\n"),
        LocalFrontendUrl := str "127.0.0.1:443",
        SshServerUrl := str "bastion:22",
        RemoteBackendUrl := str "127.0.0.1:443" },
      { Config := (str "ubuntu", str "KEY\n", str "aa:bb\n"),
        LocalFrontendUrl := str "127.0.0.1:6443",
        SshServerUrl := str "bastion:22",
        RemoteBackendUrl := str "127.0.0.1:6443" }] }

/-- A file system like `sampleFs`, except that `authorized-ssh-private-key`
exists and is empty. -/
def emptyKeyFs : FileSystem := fun name =>
  if name = "authorized-ssh-private-key" then FileProbe.present [] else sampleFs name

/-! ## Helper lemmas -/

theorem str_newline : str "\n" = [10] := by decide

theorem HasSuffix_append (t suffix : GoString) : HasSuffix (t ++ suffix) suffix = true := by
  simp [HasSuffix]

theorem TrimSuffix_append (t suffix : GoString) : TrimSuffix (t ++ suffix) suffix = t := by
  simp [TrimSuffix, HasSuffix_append]

theorem TrimSuffix_of_no_suffix (s suffix : GoString) (h : ∀ t, s ≠ t ++ suffix) :
    TrimSuffix s suffix = s := by
  unfold TrimSuffix
  split
  · rename_i hs
    exfalso
    simp only [HasSuffix, Bool.and_eq_true, decide_eq_true_eq, beq_iff_eq] at hs
    apply h (s.take (s.length - suffix.length))
    conv_lhs => rw [← List.take_append_drop (s.length - suffix.length) s]
    rw [hs.2]
  · rfl

theorem loader_uses_fallback (p : FileProbe) (fallbackVal : GoString) (h : p.stat ≠ none)
    (hf : fallbackVal ≠ []) : (p.stat.isSome && !fallbackVal.isEmpty) = true := by
  cases hs : p.stat with
  | none => exact absurd hs h
  | some e => cases fallbackVal with
    | nil => exact absurd rfl hf
    | cons a l => rfl

/-- The runs of `main`, case by case: either one of the five steps fails and
`main` panics there, or all succeed and `main` registers the handler, launches
and prints. -/
theorem main_cases {Key Cfg : Type} (env : Env Key Cfg) :
    (∃ v e, getSshPrivateKey env.fs env.embeddedAuthorizedPrivateKey = (v, some e) ∧
      main env = ⟨[], some (str "Failed to read private key: " ++ e)⟩) ∨
    (∃ pem e, getSshPrivateKey env.fs env.embeddedAuthorizedPrivateKey = (pem, none) ∧
      env.ParsePrivateKey pem = .error e ∧
      main env = ⟨[.ParsePrivateKey pem], some (str "Failed to parse private key: " ++ e)⟩) ∨
    (∃ pem key v e, getSshPrivateKey env.fs env.embeddedAuthorizedPrivateKey = (pem, none) ∧
      env.ParsePrivateKey pem = .ok key ∧
      getTunnelServerUrl env.fs env.embeddedTunnelServerUrl = (v, some e) ∧
      main env = ⟨[.ParsePrivateKey pem],
        some (str "Failed to retrieve tunnel server url: " ++ e)⟩) ∨
    (∃ pem key url v e, getSshPrivateKey env.fs env.embeddedAuthorizedPrivateKey = (pem, none) ∧
      env.ParsePrivateKey pem = .ok key ∧
      getTunnelServerUrl env.fs env.embeddedTunnelServerUrl = (url, none) ∧
      getTunnelServerFingerprint env.fs env.embeddedTunnelFingerprint = (v, some e) ∧
      main env = ⟨[.ParsePrivateKey pem],
        some (str "Failed to retrieve tunnel server fingerprint: " ++ e)⟩) ∨
    (∃ pem key url fp e, getSshPrivateKey env.fs env.embeddedAuthorizedPrivateKey = (pem, none) ∧
      env.ParsePrivateKey pem = .ok key ∧
      getTunnelServerUrl env.fs env.embeddedTunnelServerUrl = (url, none) ∧
      getTunnelServerFingerprint env.fs env.embeddedTunnelFingerprint = (fp, none) ∧
      env.GetAuthSshConfigs (str "ubuntu") key fp = .error e ∧
      main env = ⟨[.ParsePrivateKey pem, .GetAuthSshConfigs (str "ubuntu") key fp],
        some (str "Failed to initiate ssh auth configs: " ++ e)⟩) ∨
    (∃ pem key url fp cfg, getSshPrivateKey env.fs env.embeddedAuthorizedPrivateKey = (pem, none) ∧
      env.ParsePrivateKey pem = .ok key ∧
      getTunnelServerUrl env.fs env.embeddedTunnelServerUrl = (url, none) ∧
      getTunnelServerFingerprint env.fs env.embeddedTunnelFingerprint = (fp, none) ∧
      env.GetAuthSshConfigs (str "ubuntu") key fp = .ok cfg ∧
      main env =
        ⟨[.ParsePrivateKey pem, .GetAuthSshConfigs (str "ubuntu") key fp,
          .handleForcedTermination
            ⟨[⟨cfg, str "127.0.0.1:443", url, str "127.0.0.1:443"⟩,
              ⟨cfg, str "127.0.0.1:6443", url, str "127.0.0.1:6443"⟩]⟩,
          .Launch
            ⟨[⟨cfg, str "127.0.0.1:443", url, str "127.0.0.1:443"⟩,
              ⟨cfg, str "127.0.0.1:6443", url, str "127.0.0.1:6443"⟩]⟩] ++
          (env.Launch
            ⟨[⟨cfg, str "127.0.0.1:443", url, str "127.0.0.1:443"⟩,
              ⟨cfg, str "127.0.0.1:6443", url, str "127.0.0.1:6443"⟩]⟩).map .Println,
         none⟩) := by
  rcases h1 : getSshPrivateKey env.fs env.embeddedAuthorizedPrivateKey with ⟨pem, _ | e⟩
  swap
  · left
    exact ⟨pem, e, rfl, by simp [main, h1]⟩
  right
  cases h2 : env.ParsePrivateKey pem with
  | error e =>
    left
    exact ⟨pem, e, rfl, h2, by simp [main, h1, h2]⟩
  | ok key =>
  right
  rcases h3 : getTunnelServerUrl env.fs env.embeddedTunnelServerUrl with ⟨url, _ | e⟩
  swap
  · left
    exact ⟨pem, key, url, e, rfl, h2, rfl, by simp [main, h1, h2, h3]⟩
  right
  rcases h4 : getTunnelServerFingerprint env.fs env.embeddedTunnelFingerprint with ⟨fp, _ | e⟩
  swap
  · left
    exact ⟨pem, key, url, fp, e, rfl, h2, rfl, rfl, by simp [main, h1, h2, h3, h4]⟩
  right
  cases h5 : env.GetAuthSshConfigs (str "ubuntu") key fp with
  | error e =>
    left
    exact ⟨pem, key, url, fp, e, rfl, h2, rfl, rfl, h5, by simp [main, h1, h2, h3, h4, h5]⟩
  | ok cfg =>
    right
    exact ⟨pem, key, url, fp, cfg, rfl, h2, rfl, rfl, h5, by simp [main, h1, h2, h3, h4, h5]⟩

theorem stdoutOf_map_Println {Key Cfg : Type} (errs : List GoError) :
    stdoutOf (errs.map (Event.Println : GoString → Event Key Cfg)) =
      errs.flatMap (fun e => e ++ str "\n") := by
  induction errs with
  | nil => rfl
  | cons e rest ih => simp [stdoutOf, ih]

theorem printedLines_map_Println {Key Cfg : Type} (errs : List GoError) :
    printedLines (errs.map (Event.Println : GoString → Event Key Cfg)) = errs := by
  induction errs with
  | nil => rfl
  | cons e rest ih => simp [printedLines, ih]

theorem handler_run_cons {M : Type} (Close : M → M) (h : Handler M) (a : HandlerAction)
    (sched : List HandlerAction) :
    Handler.run Close h (a :: sched) = Handler.run Close (h.step Close a) sched := rfl

/-- Every `Close` call consumes a signal that was delivered: calls made plus
signals still waiting never exceed the earlier total plus the deliveries. -/
theorem handler_run_closeCalls_le {M : Type} (Close : M → M) (sched : List HandlerAction) :
    ∀ h : Handler M, (Handler.run Close h sched).closeCalls + (Handler.run Close h sched).c.length
      ≤ h.closeCalls + h.c.length + delivered sched := by
  induction sched with
  | nil => intro h; simp [Handler.run, delivered]
  | cons a rest ih =>
    rintro ⟨c, mgr, n⟩
    rw [handler_run_cons]
    cases a with
    | deliver s =>
      cases c with
      | nil =>
        have := ih ⟨[s], mgr, n⟩
        simp only [Handler.step, delivered, List.length_nil, List.length_singleton,
          Nat.lt_one_iff, if_true, List.nil_append] at this ⊢
        omega
      | cons x xs =>
        have := ih ⟨x :: xs, mgr, n⟩
        simp only [Handler.step, delivered, List.length_cons, Nat.lt_one_iff,
          Nat.add_one_ne_zero, if_false] at this ⊢
        omega
    | receive =>
      cases c with
      | nil =>
        have := ih ⟨[], mgr, n⟩
        simp only [Handler.step, delivered, List.length_nil] at this ⊢
        omega
      | cons x xs =>
        have := ih ⟨xs, Close mgr, n + 1⟩
        simp only [Handler.step, delivered, List.length_cons] at this ⊢
        omega

/-- When each signal is taken before the next arrives, every signal costs one
`Close` call and the channel is empty again afterwards. -/
theorem handler_run_oneByOne {M : Type} (Close : M → M) (sigs : List Signal) :
    ∀ h : Handler M, h.c = [] →
      (Handler.run Close h (oneByOne sigs)).c = [] ∧
      (Handler.run Close h (oneByOne sigs)).closeCalls = h.closeCalls + sigs.length := by
  induction sigs with
  | nil => intro h hc; simp [oneByOne, Handler.run, hc]
  | cons s rest ih =>
    intro h hc
    have hstep : oneByOne (s :: rest) = .deliver s :: .receive :: oneByOne rest := by
      simp [oneByOne]
    rw [hstep, handler_run_cons, handler_run_cons]
    have h2 := ih ((h.step Close (.deliver s)).step Close .receive) (by simp [Handler.step, hc])
    refine ⟨h2.1, ?_⟩
    rw [h2.2]
    simp [Handler.step, hc]
    omega

/-- With an idempotent `Close`, the manager held by the handler is the initial
one before the first call and the closed one after any number of calls. -/
theorem handler_run_manager {M : Type} (Close : M → M) (m : M)
    (hidem : Close (Close m) = Close m) (sched : List HandlerAction) :
    ∀ h : Handler M, h.manager = (if h.closeCalls = 0 then m else Close m) →
      (Handler.run Close h sched).manager =
        (if (Handler.run Close h sched).closeCalls = 0 then m else Close m) := by
  induction sched with
  | nil => intro h hm; simpa [Handler.run] using hm
  | cons a rest ih =>
    rintro ⟨c, mgr, n⟩ hm
    rw [handler_run_cons]
    apply ih
    cases a with
    | deliver s =>
      simp only [Handler.step]
      split <;> exact hm
    | receive =>
      cases c with
      | nil => exact hm
      | cons x xs =>
        simp only [Handler.step, Nat.add_one_ne_zero, if_false]
        simp only at hm
        rw [hm]
        split
        · rfl
        · exact hidem

theorem process_run_cons {M : Type} (Close : M → M) (p : Process M) (a : Action)
    (sched : List Action) :
    Process.run Close p (a :: sched) = Process.run Close (p.step Close a) sched := rfl

theorem process_run_exited {M : Type} (Close : M → M) (sched : List Action) :
    ∀ p : Process M, p.exited = true → Process.run Close p sched = p := by
  induction sched with
  | nil => intro p _; rfl
  | cons a rest ih =>
    intro p hp
    rw [process_run_cons]
    have : p.step Close a = p := by simp [Process.step, hp]
    rw [this]
    exact ih p hp

/-- The process exits exactly when `main` has taken one step more than it has
errors left to print; steps of the handler play no part. -/
theorem process_run_exited_iff {M : Type} (Close : M → M) (sched : List Action) :
    ∀ p : Process M, p.exited = false →
      ((Process.run Close p sched).exited = true ↔ p.pending.length < mainSteps sched) := by
  induction sched with
  | nil => intro p hp; simp [Process.run, mainSteps, hp]
  | cons a rest ih =>
    intro p hp
    rw [process_run_cons]
    cases a with
    | handler a =>
      have := ih (p.step Close (.handler a)) (by simp [Process.step, hp])
      rw [this]
      simp [Process.step, hp, mainSteps]
    | mainStep =>
      cases hpend : p.pending with
      | nil =>
        have hs : (p.step Close .mainStep).exited = true := by simp [Process.step, hp, hpend]
        rw [process_run_exited Close rest _ hs]
        simp [hs, mainSteps]
      | cons e es =>
        have := ih (p.step Close .mainStep) (by simp [Process.step, hp, hpend])
        rw [this]
        simp [Process.step, hp, hpend, mainSteps]

/-! ## The loaders -/

/-- C9: for every content `c` of a `tunnel-server-url` file that exists and is
readable, `getTunnelServerUrl` returns `(r, nil)` where `r` is `c` without its
last byte when `c` ends with a newline and `r = c` otherwise; so
`r ++ "\n" = c` or `r = c`, a content ending in two newlines gives a result
still ending in one, and a trailing carriage return or space is kept. -/
theorem getTunnelServerUrl_trims_one_newline (fs : FileSystem) (fallbackVal c : GoString)
    (hstat : (fs "tunnel-server-url").stat = none)
    (hread : (fs "tunnel-server-url").read = .ok c) :
    ∃ r, getTunnelServerUrl fs fallbackVal = (r, none) ∧
      (∀ t, c = t ++ str "\n" → r = t) ∧
      ((∀ t, c ≠ t ++ str "\n") → r = c) ∧
      (r ++ str "\n" = c ∨ r = c) ∧
      (∀ t, c = t ++ str "\n\n" → r = t ++ str "\n") ∧
      (∀ t, c = t ++ str "\r" → r = c) ∧
      (∀ t, c = t ++ str " " → r = c) := by
  have hres : getTunnelServerUrl fs fallbackVal = (TrimSuffix c (str "\n"), none) := by
    simp [getTunnelServerUrl, hstat, hread]
  have hkeep : ∀ (t : GoString) (b : UInt8), b ≠ 10 → c = t ++ [b] →
      TrimSuffix c (str "\n") = c := by
    intro t b hb hc
    apply TrimSuffix_of_no_suffix
    intro u hu
    rw [hc, str_newline] at hu
    have := List.append_inj_right' hu rfl
    simp at this
    exact hb this
  refine ⟨TrimSuffix c (str "\n"), hres, ?_, ?_, ?_, ?_, ?_, ?_⟩
  · intro t ht
    rw [ht, TrimSuffix_append]
  · exact TrimSuffix_of_no_suffix c _
  · by_cases h : ∃ t, c = t ++ str "\n"
    · obtain ⟨t, ht⟩ := h
      left
      rw [ht, TrimSuffix_append]
    · right
      apply TrimSuffix_of_no_suffix
      intro t ht
      exact h ⟨t, ht⟩
  · intro t ht
    have h2 : str "\n\n" = str "\n" ++ str "\n" := by decide
    rw [ht, h2, ← List.append_assoc, TrimSuffix_append]
  · intro t ht
    exact hkeep t 13 (by decide) (by rw [ht]; rfl)
  · intro t ht
    exact hkeep t 32 (by decide) (by rw [ht]; rfl)

/-- Witness for C9: a file `"bastion:22\n"` gives the URL `"bastion:22"`. -/
theorem getTunnelServerUrl_trims_one_newline_witness :
    getTunnelServerUrl sampleFs (str "fallback:22") = (str "bastion:22", none) := by
  obtain ⟨r, hr, h1, -⟩ := getTunnelServerUrl_trims_one_newline sampleFs (str "fallback:22")
    (str "bastion:22\n") (by decide) (by rfl)
  rw [hr, h1 (str "bastion:22") (by decide)]

/-- C10: the file takes precedence over the fallback. For each loader, when its
file exists and is readable with content `c`, two calls with different
fallback values return the same value and a nil error; for
`getTunnelServerFingerprint` and `getSshPrivateKey` the value is `c` itself,
so a trailing newline of `host-md5-fingerprint` stays in the fingerprint. -/
theorem file_takes_precedence (fs : FileSystem) (fallback1 fallback2 : GoString) :
    (∀ c, (fs "tunnel-server-url").stat = none → (fs "tunnel-server-url").read = .ok c →
      getTunnelServerUrl fs fallback1 = getTunnelServerUrl fs fallback2 ∧
      (getTunnelServerUrl fs fallback1).2 = none) ∧
    (∀ c, (fs "host-md5-fingerprint").stat = none → (fs "host-md5-fingerprint").read = .ok c →
      getTunnelServerFingerprint fs fallback1 = (c, none) ∧
      getTunnelServerFingerprint fs fallback2 = (c, none)) ∧
    (∀ t, (fs "host-md5-fingerprint").stat = none →
      (fs "host-md5-fingerprint").read = .ok (t ++ str "\n") →
      (getTunnelServerFingerprint fs fallback1).1 = t ++ str "\n") ∧
    (∀ c, (fs "authorized-ssh-private-key").stat = none →
      (fs "authorized-ssh-private-key").read = .ok c →
      getSshPrivateKey fs fallback1 = (c, none) ∧
      getSshPrivateKey fs fallback2 = (c, none)) := by
  refine ⟨?_, ?_, ?_, ?_⟩
  · intro c hs hr
    simp [getTunnelServerUrl, hs, hr]
  · intro c hs hr
    simp [getTunnelServerFingerprint, hs, hr]
  · intro t hs hr
    simp [getTunnelServerFingerprint, hs, hr]
  · intro c hs hr
    simp [getSshPrivateKey, hs, hr]

/-- Witness for C10: with the three files present, two different fallbacks
give the same URL, and fingerprint and key are the file contents. -/
theorem file_takes_precedence_witness :
    getTunnelServerUrl sampleFs (str "a:22") = getTunnelServerUrl sampleFs (str "b:22") ∧
    getTunnelServerFingerprint sampleFs (str "ff:ff") = (str "aa:bb\n", none) ∧
    getSshPrivateKey sampleFs (str "OTHER") = (str "KEY\n", none) :=
  have h := file_takes_precedence sampleFs (str "a:22") (str "b:22")
  have g := file_takes_precedence sampleFs (str "ff:ff") (str "OTHER")
  ⟨(h.1 (str "bastion:22\n") (by decide) (by rfl)).1,
   (g.2.1 (str "aa:bb\n") (by decide) (by rfl)).1,
   (g.2.2.2 (str "KEY\n") (by decide) (by rfl)).2⟩

/-- C5 (as amended): for every non-empty fallback value, a loader whose file
does not exist (`os.Stat` fails) returns the fallback value unchanged with a
nil error. -/
theorem loaders_fall_back_when_file_missing (fs : FileSystem) (fallbackVal : GoString)
    (hf : fallbackVal ≠ []) :
    ((fs "tunnel-server-url").stat ≠ none →
      getTunnelServerUrl fs fallbackVal = (fallbackVal, none)) ∧
    ((fs "host-md5-fingerprint").stat ≠ none →
      getTunnelServerFingerprint fs fallbackVal = (fallbackVal, none)) ∧
    ((fs "authorized-ssh-private-key").stat ≠ none →
      getSshPrivateKey fs fallbackVal = (fallbackVal, none)) := by
  refine ⟨?_, ?_, ?_⟩
  · intro hs
    simp [getTunnelServerUrl, loader_uses_fallback _ _ hs hf]
  · intro hs
    simp [getTunnelServerFingerprint, loader_uses_fallback _ _ hs hf]
  · intro hs
    simp [getSshPrivateKey, loader_uses_fallback _ _ hs hf]

/-- Witness for C5: no file exists and the fallback is `"x"`. -/
theorem loaders_fall_back_when_file_missing_witness :
    getTunnelServerUrl missingFs (str "x") = (str "x", none) ∧
    getTunnelServerFingerprint missingFs (str "x") = (str "x", none) ∧
    getSshPrivateKey missingFs (str "x") = (str "x", none) :=
  have h := loaders_fall_back_when_file_missing missingFs (str "x") (by decide)
  ⟨h.1 (by decide), h.2.1 (by decide), h.2.2 (by decide)⟩

/-- Counterexample to C5 as stated: with an empty fallback value and no file,
each loader returns a non-nil error. -/
theorem loaders_empty_fallback_missing_file_error :
    (missingFs "tunnel-server-url").stat ≠ none ∧
    getTunnelServerUrl missingFs (str "") =
      (str "", some (str "open tunnel-server-url: no such file or directory")) ∧
    (missingFs "host-md5-fingerprint").stat ≠ none ∧
    getTunnelServerFingerprint missingFs (str "") =
      (str "", some (str "open host-md5-fingerprint: no such file or directory")) ∧
    (missingFs "authorized-ssh-private-key").stat ≠ none ∧
    getSshPrivateKey missingFs (str "") =
      (str "", some (str "open authorized-ssh-private-key: no such file or directory")) := by
  decide

/-! ## `main` -/

/-- C1: in every run of `main` that reaches manager construction, the manager
handed to `handleForcedTermination` and `Launch` holds exactly two tunnels, in
this order: local `127.0.0.1:443` to remote `127.0.0.1:443`, and local
`127.0.0.1:6443` to remote `127.0.0.1:6443`; both carry the URL returned by
`getTunnelServerUrl` and the auth config returned by `GetAuthSshConfigs`, and
their local bind addresses are distinct. -/
theorem main_builds_two_tunnels {Key Cfg : Type} (env : Env Key Cfg)
    (m : SshTunnelsManager Cfg)
    (h : Event.handleForcedTermination m ∈ (main env).events ∨
      Event.Launch m ∈ (main env).events) :
    ∃ url key fp cfg,
      getTunnelServerUrl env.fs env.embeddedTunnelServerUrl = (url, none) ∧
      Event.GetAuthSshConfigs (str "ubuntu") key fp ∈ (main env).events ∧
      env.GetAuthSshConfigs (str "ubuntu") key fp = .ok cfg ∧
      m.Tunnels =
        [{ Config := cfg, LocalFrontendUrl := str "127.0.0.1:443",
           SshServerUrl := url, RemoteBackendUrl := str "127.0.0.1:443" },
         { Config := cfg, LocalFrontendUrl := str "127.0.0.1:6443",
           SshServerUrl := url, RemoteBackendUrl := str "127.0.0.1:6443" }] ∧
      (m.Tunnels.map (fun t => t.LocalFrontendUrl)).Nodup := by
  rcases main_cases env with ⟨v, e, -, hm⟩ | ⟨pem, e, -, -, hm⟩ | ⟨pem, key, v, e, -, -, -, hm⟩ |
    ⟨pem, key, url, v, e, -, -, -, -, hm⟩ | ⟨pem, key, url, fp, e, -, -, -, -, -, hm⟩ |
    ⟨pem, key, url, fp, cfg, -, -, h3, -, h5, hm⟩
  all_goals rw [hm] at h ⊢
  all_goals simp at h
  refine ⟨url, key, fp, cfg, h3, by simp, h5, ?_, ?_⟩
  · subst h
    rfl
  · subst h
    have hne : str "127.0.0.1:443" ≠ str "127.0.0.1:6443" := by decide
    simp [hne]

/-- Witness for C1: with the three files present, `main` launches the manager
`sampleManager`, whose two local addresses differ. -/
theorem main_builds_two_tunnels_witness :
    Event.Launch sampleManager ∈ (main (sampleEnv sampleFs [])).events ∧
    (sampleManager.Tunnels.map (fun t => t.LocalFrontendUrl)).Nodup := by
  have hin : Event.Launch sampleManager ∈ (main (sampleEnv sampleFs [])).events := by decide
  obtain ⟨url, key, fp, cfg, -, -, -, -, hnd⟩ :=
    main_builds_two_tunnels (sampleEnv sampleFs []) sampleManager (Or.inr hin)
  exact ⟨hin, hnd⟩

/-- The fingerprint loader returns an empty fingerprint without error exactly
when it read the file and the file is empty. -/
theorem fingerprint_empty_iff (fs : FileSystem) (fallbackVal fp : GoString)
    (h : getTunnelServerFingerprint fs fallbackVal = (fp, none)) :
    fp = [] ↔ ((fs "host-md5-fingerprint").read = .ok [] ∧
      ((fs "host-md5-fingerprint").stat = none ∨ fallbackVal = [])) := by
  unfold getTunnelServerFingerprint at h
  split at h
  · rename_i hc
    simp only [Prod.mk.injEq, and_true] at h
    subst h
    simp only [Bool.and_eq_true, Bool.not_eq_true', List.isEmpty_eq_false] at hc
    have hs : (fs "host-md5-fingerprint").stat ≠ none := by
      intro hn
      simp [hn] at hc
    have hf : fallbackVal ≠ [] := by
      intro hn
      simp [hn] at hc
    simp [hs, hf]
  · rename_i hc
    have hor : (fs "host-md5-fingerprint").stat = none ∨ fallbackVal = [] := by
      by_contra hcon
      simp only [not_or] at hcon
      exact hc (loader_uses_fallback _ _ hcon.1 hcon.2)
    cases hr : (fs "host-md5-fingerprint").read with
    | error e => simp [hr] at h
    | ok buffer =>
      simp only [hr, Prod.mk.injEq, and_true] at h
      subst h
      simp [hor]

/-- C3 (as amended): whenever `main` reaches the call `ssh.GetAuthSshConfigs`,
the fingerprint it passes is the value `getTunnelServerFingerprint` returned,
and that value is empty exactly when the `host-md5-fingerprint` file was read
(it exists, or the embedded fallback is empty) and its content is empty. In
every other case, in particular when the embedded fallback is used, the
fingerprint is non-empty. -/
theorem fingerprint_passed_empty_iff {Key Cfg : Type} (env : Env Key Cfg)
    (user : GoString) (key : Key) (fp : GoString)
    (h : Event.GetAuthSshConfigs user key fp ∈ (main env).events) :
    getTunnelServerFingerprint env.fs env.embeddedTunnelFingerprint = (fp, none) ∧
    (fp = [] ↔ ((env.fs "host-md5-fingerprint").read = .ok [] ∧
      ((env.fs "host-md5-fingerprint").stat = none ∨ env.embeddedTunnelFingerprint = []))) := by
  have hfp : getTunnelServerFingerprint env.fs env.embeddedTunnelFingerprint = (fp, none) := by
    rcases main_cases env with ⟨v, e, -, hm⟩ | ⟨pem, e, -, -, hm⟩ |
      ⟨pem, key, v, e, -, -, -, hm⟩ | ⟨pem, key, url, v, e, -, -, -, -, hm⟩ |
      ⟨pem, key, url, fp1, e, -, -, -, h4, -, hm⟩ |
      ⟨pem, key, url, fp1, cfg, -, -, -, h4, -, hm⟩
    all_goals rw [hm] at h
    all_goals simp at h
    all_goals rw [h4, h.2.2]
  exact ⟨hfp, fingerprint_empty_iff _ _ _ hfp⟩

/-- Witness for C3: with a non-empty `host-md5-fingerprint` file, `main` passes
its content, which is not empty. -/
theorem fingerprint_passed_empty_iff_witness :
    Event.GetAuthSshConfigs (str "ubuntu") (str "KEY\n") (str "aa:bb\n") ∈
      (main (sampleEnv sampleFs [])).events ∧
    getTunnelServerFingerprint sampleFs (str "ee:ee") = (str "aa:bb\n", none) :=
  have hin : Event.GetAuthSshConfigs (str "ubuntu") (str "KEY\n") (str "aa:bb\n") ∈
      (main (sampleEnv sampleFs [])).events := by decide
  ⟨hin, (fingerprint_passed_empty_iff (sampleEnv sampleFs []) _ _ _ hin).1⟩

/-- Counterexample to C3 as stated: when `host-md5-fingerprint` exists and is
empty, `getTunnelServerFingerprint` returns no error and `main` calls
`ssh.GetAuthSshConfigs` with an empty fingerprint. -/
theorem main_passes_empty_fingerprint :
    getTunnelServerFingerprint emptyFingerprintFs (str "ee:ee") = (str "", none) ∧
    Event.GetAuthSshConfigs (str "ubuntu") (str "KEY\n") (str "") ∈
      (main (sampleEnv emptyFingerprintFs [])).events := by
  decide

/-- C4: `main` hands only validated values to the core. The handler
registration and `Launch` are reached only if reading the key, parsing it,
retrieving the URL, retrieving the fingerprint and building the auth config all
returned no error; when one of the five fails after the earlier ones
succeeded, `main` panics with the message naming that step and reaches neither
the handler registration nor `Launch`. -/
theorem main_validates_before_launch {Key Cfg : Type} (env : Env Key Cfg) :
    ((main env).reachesCore →
      (main env).panic = none ∧
      ∃ pem key url fp cfg,
        getSshPrivateKey env.fs env.embeddedAuthorizedPrivateKey = (pem, none) ∧
        env.ParsePrivateKey pem = .ok key ∧
        getTunnelServerUrl env.fs env.embeddedTunnelServerUrl = (url, none) ∧
        getTunnelServerFingerprint env.fs env.embeddedTunnelFingerprint = (fp, none) ∧
        env.GetAuthSshConfigs (str "ubuntu") key fp = .ok cfg) ∧
    (∀ v e, getSshPrivateKey env.fs env.embeddedAuthorizedPrivateKey = (v, some e) →
      (main env).panic = some (str "Failed to read private key: " ++ e) ∧
      ¬ (main env).reachesCore) ∧
    (∀ pem e, getSshPrivateKey env.fs env.embeddedAuthorizedPrivateKey = (pem, none) →
      env.ParsePrivateKey pem = .error e →
      (main env).panic = some (str "Failed to parse private key: " ++ e) ∧
      ¬ (main env).reachesCore) ∧
    (∀ pem key v e, getSshPrivateKey env.fs env.embeddedAuthorizedPrivateKey = (pem, none) →
      env.ParsePrivateKey pem = .ok key →
      getTunnelServerUrl env.fs env.embeddedTunnelServerUrl = (v, some e) →
      (main env).panic = some (str "Failed to retrieve tunnel server url: " ++ e) ∧
      ¬ (main env).reachesCore) ∧
    (∀ pem key url v e, getSshPrivateKey env.fs env.embeddedAuthorizedPrivateKey = (pem, none) →
      env.ParsePrivateKey pem = .ok key →
      getTunnelServerUrl env.fs env.embeddedTunnelServerUrl = (url, none) →
      getTunnelServerFingerprint env.fs env.embeddedTunnelFingerprint = (v, some e) →
      (main env).panic = some (str "Failed to retrieve tunnel server fingerprint: " ++ e) ∧
      ¬ (main env).reachesCore) ∧
    (∀ pem key url fp e, getSshPrivateKey env.fs env.embeddedAuthorizedPrivateKey = (pem, none) →
      env.ParsePrivateKey pem = .ok key →
      getTunnelServerUrl env.fs env.embeddedTunnelServerUrl = (url, none) →
      getTunnelServerFingerprint env.fs env.embeddedTunnelFingerprint = (fp, none) →
      env.GetAuthSshConfigs (str "ubuntu") key fp = .error e →
      (main env).panic = some (str "Failed to initiate ssh auth configs: " ++ e) ∧
      ¬ (main env).reachesCore) := by
  refine ⟨?_, ?_, ?_, ?_, ?_, ?_⟩
  · rintro ⟨m, h⟩
    rcases main_cases env with ⟨v, e, -, hm⟩ | ⟨pem, e, -, -, hm⟩ |
      ⟨pem, key, v, e, -, -, -, hm⟩ | ⟨pem, key, url, v, e, -, -, -, -, hm⟩ |
      ⟨pem, key, url, fp, e, -, -, -, -, -, hm⟩ |
      ⟨pem, key, url, fp, cfg, h1, h2, h3, h4, h5, hm⟩
    all_goals rw [hm] at h ⊢
    all_goals simp at h
    exact ⟨rfl, pem, key, url, fp, cfg, h1, h2, h3, h4, h5⟩
  · intro v e h1
    simp [main, h1, Run.reachesCore]
  · intro pem e h1 h2
    simp [main, h1, h2, Run.reachesCore]
  · intro pem key v e h1 h2 h3
    simp [main, h1, h2, h3, Run.reachesCore]
  · intro pem key url v e h1 h2 h3 h4
    simp [main, h1, h2, h3, h4, Run.reachesCore]
  · intro pem key url fp e h1 h2 h3 h4 h5
    simp [main, h1, h2, h3, h4, h5, Run.reachesCore]

/-- Witness for C4: with the three files present `main` reaches the core
without panic; with an empty key file it panics at the parsing step and does
not reach the core. -/
theorem main_validates_before_launch_witness :
    (main (sampleEnv sampleFs [])).reachesCore ∧
    (main (sampleEnv sampleFs [])).panic = none ∧
    (main (sampleEnv emptyKeyFs [])).panic =
      some (str "Failed to parse private key: ssh: no key found") ∧
    ¬ (main (sampleEnv emptyKeyFs [])).reachesCore :=
  have hr : (main (sampleEnv sampleFs [])).reachesCore := ⟨sampleManager, Or.inr (by decide)⟩
  have hbad := (main_validates_before_launch (sampleEnv emptyKeyFs [])).2.2.1
    [] (str "ssh: no key found") (by decide) (by rfl)
  ⟨hr, ((main_validates_before_launch (sampleEnv sampleFs [])).1 hr).1, hbad.1, hbad.2⟩

/-- C6: for every list of errors returned by `manager.Launch`, `main` writes to
standard output exactly the message of each returned error followed by a
newline, in the order of the list, and nothing when the list is empty. -/
theorem main_prints_launch_errors {Key Cfg : Type} (env : Env Key Cfg)
    (m : SshTunnelsManager Cfg) (h : Event.Launch m ∈ (main env).events) :
    printedLines (main env).events = env.Launch m ∧
    stdoutOf (main env).events = (env.Launch m).flatMap (fun e => e ++ str "\n") ∧
    (env.Launch m = [] → stdoutOf (main env).events = []) := by
  have key : printedLines (main env).events = env.Launch m ∧
      stdoutOf (main env).events = (env.Launch m).flatMap (fun e => e ++ str "\n") := by
    rcases main_cases env with ⟨v, e, -, hm⟩ | ⟨pem, e, -, -, hm⟩ |
      ⟨pem, key, v, e, -, -, -, hm⟩ | ⟨pem, key, url, v, e, -, -, -, -, hm⟩ |
      ⟨pem, key, url, fp, e, -, -, -, -, -, hm⟩ |
      ⟨pem, key, url, fp, cfg, -, -, -, -, -, hm⟩
    all_goals rw [hm] at h ⊢
    all_goals simp at h
    subst h
    exact ⟨by simp [printedLines, printedLines_map_Println],
      by simp [stdoutOf, stdoutOf_map_Println]⟩
  refine ⟨key.1, key.2, ?_⟩
  intro he
  rw [key.2, he]
  rfl

/-- Witness for C6: two errors returned by `Launch` give two lines. -/
theorem main_prints_launch_errors_witness :
    stdoutOf (main (sampleEnv sampleFs
      [str "dial tcp: connection refused", str "listen: address in use"])).events =
      str "dial tcp: connection refused\nlisten: address in use\n" := by
  have h := main_prints_launch_errors (sampleEnv sampleFs
    [str "dial tcp: connection refused", str "listen: address in use"]) sampleManager
    (by decide)
  rw [h.2.1]
  decide

/-! ## The signal handler and the life of the process -/

/-- C2 (as amended): the handler calls `manager.Close` once for every signal
it takes from the channel. For every sequence of signals each taken before the
next arrives, the number of `Close` calls is the length of the sequence; under
every interleaving it is at most the number of signals delivered (a signal
that finds the one-slot buffer full is dropped). -/
theorem handler_closes_once_per_signal {M : Type} (Close : M → M) (manager : M) :
    (∀ sigs : List Signal,
      (Handler.run Close (handleForcedTermination manager) (oneByOne sigs)).closeCalls =
        sigs.length) ∧
    (∀ sched : List HandlerAction,
      (Handler.run Close (handleForcedTermination manager) sched).closeCalls ≤
        delivered sched) := by
  constructor
  · intro sigs
    have h := (handler_run_oneByOne Close sigs (handleForcedTermination manager) rfl).2
    simpa [handleForcedTermination] using h
  · intro sched
    have h := handler_run_closeCalls_le Close sched (handleForcedTermination manager)
    simp only [handleForcedTermination, List.length_nil] at h ⊢
    omega

/-- Counterexample to C2 as stated: an interrupt followed, after the handler has
dealt with it, by a SIGTERM makes the handler call `manager.Close` twice. -/
theorem handler_two_signals_two_closes :
    (Handler.run (fun m => m) (handleForcedTermination sampleManager)
      [.deliver .Interrupt, .receive, .deliver .SIGTERM, .receive]).closeCalls = 2 := by
  decide

/-- C7 (as amended): after `manager.Launch` has returned, `main` prints the
returned errors and returns without waiting for a signal: under every
interleaving with signal deliveries and handler iterations, the process has
exited exactly when `main` has taken more steps than there are errors to
print, whether or not any signal was received. -/
theorem main_returns_without_waiting {M : Type} (Close : M → M) (h : Handler M)
    (errs : List GoError) (sched : List Action) :
    (Process.run Close (Process.afterLaunch h errs) sched).exited = true ↔
      errs.length < mainSteps sched :=
  process_run_exited_iff Close sched (Process.afterLaunch h errs) rfl

/-- Counterexample to C7 as stated: `Launch` returns no error, no signal is
ever delivered, and after one step of `main` the process has exited with no
`Close` call made. -/
theorem main_returns_without_signal :
    (sampleEnv sampleFs []).Launch sampleManager = [] ∧
    signalsIn [Action.mainStep] = 0 ∧
    (Process.run (fun m => m)
      (Process.afterLaunch (handleForcedTermination sampleManager)
        ((sampleEnv sampleFs []).Launch sampleManager)) [Action.mainStep]).exited = true ∧
    (Process.run (fun m => m)
      (Process.afterLaunch (handleForcedTermination sampleManager)
        ((sampleEnv sampleFs []).Launch sampleManager))
      [Action.mainStep]).handler.closeCalls = 0 := by
  decide

/-- C8: `SshTunnelsManager.Close` is idempotent. For every manager state, a
second `Close` leaves the state reached by the first unchanged; in that state
every tunnel is closed with its listener unbound, its SSH session closed and
no forwarded connection left; and the handler of `main`, which calls `Close`
once per signal it receives, holds that same state after any number of calls. -/
theorem Close_idempotent {Cfg : Type} (m : ManagerState Cfg) :
    m.Close.Close = m.Close ∧
    m.Close.released ∧
    (∀ sched : List HandlerAction,
      (Handler.run ManagerState.Close (handleForcedTermination m) sched).manager =
        if (Handler.run ManagerState.Close (handleForcedTermination m) sched).closeCalls = 0
        then m else m.Close) := by
  have hidem : m.Close.Close = m.Close := by
    simp [ManagerState.Close, TunnelState.stop, Function.comp_def]
  refine ⟨hidem, ?_, ?_⟩
  · intro t ht
    simp only [ManagerState.Close, List.mem_map] at ht
    obtain ⟨u, -, rfl⟩ := ht
    simp [TunnelState.stop]
  · intro sched
    exact handler_run_manager ManagerState.Close m hidem sched (handleForcedTermination m) rfl

end K8Tunnel
